import Mathlib

/-!
# A verification model of the `ctp` concurrent-primitives library

This file gives a shallow embedding, in Lean, of the algorithmic content of
the `ctp` sources (`array_rope.c`, `hazards.c`, `desc_tbl.c`,
`thread_safe_global.c`) and proves properties of the embedded definitions.

Modelling conventions:

* Machine integers are `Nat` with explicit reductions modulo `2 ^ 32` or
  `2 ^ 64` exactly where the C arithmetic wraps.
* Pointers and payloads are abstract `Nat` addresses; `0` stands for `NULL`.
  Distinct live allocations are assumed to occupy disjoint address ranges,
  as the C allocator guarantees.
* Stateful C functions become pure functions from the pre-state to a result
  record holding the error code, the outputs, and the post-state.  The
  embedding is of quiescent (sequential) executions: an atomic read returns
  the value most recently stored, and there is no interleaved writer.
  `assert` failures and unreachable-in-sequence branches are surfaced as an
  `aborted` flag in the result.
* Allocation always succeeds (`ENOMEM` paths are not exercised); fresh heap
  addresses are supplied explicitly as arguments.
-/

namespace Ctp

/-! ## Platform constants (LP64, as used by the sources) -/

def NULL : Nat := 0

def INT_MAX : Nat := 2 ^ 31 - 1

def UINT16_MAX : Nat := 2 ^ 16 - 1

def UINT32_MOD : Nat := 2 ^ 32

def UINT64_MOD : Nat := 2 ^ 64

def SIZE_MAX : Nat := 2 ^ 64 - 1

/-- `sizeof(struct array_rope_s)`: two 8-byte pointers plus three `uint32_t`
fields, padded to 8-byte alignment. -/
def SIZEOF_ARRAY_ROPE_S : Nat := 32

/-! ### errno values (Linux) -/

def ENOENT : Nat := 2

def EBADF : Nat := 9

def ENOMEM : Nat := 12

def EINVAL : Nat := 22

def EMFILE : Nat := 24

def EOVERFLOW : Nat := 75

/-! ## Chunked array (`array_rope.c`)

A rope is a linked list of chunks (`struct array_rope_s`).  A chunk is
modelled by the address of its element blob (`elts`), its element alignment
size, its capacity (`nalloced`) and its used count (`nelts`); the `next`
pointer becomes the list structure.
-/

structure Chunk where
  base : Nat             -- address of the `elts' blob
  elt_align_size : Nat   -- uint32_t elt_align_size
  nalloced : Nat         -- uint32_t nalloced
  nelts : Nat            -- uint32_t nelts
deriving DecidableEq, Repr

/-- Capacity of the successor chunk: `last->nalloced + (last->nalloced >> 1)
+ 4`, computed in `uint32_t` arithmetic (`array_rope.c:125`). -/
def growCap (c : Nat) : Nat := (c + c / 2 + 4) % UINT32_MOD

/-- `grow` (`array_rope.c:107-133`), sequential embedding: the CAS appending
the fresh chunk always succeeds.  The overflow test at lines 112-114 divides
`SIZE_MAX` by `elt_align_size` (for `elt_align_size = 0` the C expression is
undefined; Lean's `x / 0 = 0` makes the model return `EOVERFLOW` there) and
compares it with the already-wrapped capacity plus the chunk header size. -/
def grow (last : Chunk) (freshBase : Nat) : Except Nat Chunk :=
  if SIZE_MAX / last.elt_align_size ≤ growCap last.nalloced + SIZEOF_ARRAY_ROPE_S then
    .error EOVERFLOW
  else
    .ok { base := freshBase, elt_align_size := last.elt_align_size,
          nalloced := growCap last.nalloced, nelts := 0 }

/-- `array_rope_init` (`array_rope.c:64-82`): one chunk of capacity 8. -/
def array_rope_init (elt_align_size : Nat) (base : Nat) : Except Nat (List Chunk) :=
  if UINT16_MAX < elt_align_size then .error EOVERFLOW
  else .ok [{ base := base, elt_align_size := elt_align_size, nalloced := 8, nelts := 0 }]

/-- The successive chunk capacities produced by `array_rope_init` and
`grow`: chunk 0 has capacity 8 (`array_rope.c:76`) and chunk `k+1` has
capacity `growCap (capSeq k)` (`array_rope.c:125`). -/
def capSeq : Nat → Nat
  | 0 => 8
  | k + 1 => growCap (capSeq k)

/-- One pass of the slot-search loop of `array_rope_add`
(`array_rope.c:151-165`), sequential embedding: the claiming CAS at line 158
succeeds at once.  Arguments: remaining chunks and the running index `idx`.
Returns `(some (ep, ip, updated chunks), idx)` when a slot was claimed, and
`(none, idx)` when the loop was left (either past the tail, or because the
`idx < (INT_MAX >> 4)` guard failed), with the final value of `idx`. -/
def addWalk : List Chunk → Nat → Option (Nat × Nat × List Chunk) × Nat
  | [], idx => (none, idx)
  | c :: rest, idx =>
    if idx < INT_MAX >>> 4 then
      if c.nelts < c.nalloced then
        (some (c.nelts * c.elt_align_size + c.base, c.nelts + idx,
               { c with nelts := c.nelts + 1 } :: rest), idx)
      else
        ((addWalk rest (idx + c.nalloced)).1.map (fun t => (t.1, t.2.1, c :: t.2.2)),
         (addWalk rest (idx + c.nalloced)).2)
    else (none, idx)

/-- `array_rope_add` (`array_rope.c:138-174`), sequential embedding.  After a
pass that found no free slot, the code grows the rope and retries; in a
sequential execution every chunk skipped by the failed pass is full, so
retrying from the new tail chunk is the same as re-walking the whole rope.
The fresh blob addresses used by successive `grow` calls are supplied in
`bases`; exhausting them stands for allocation failure (`ENOMEM`). -/
def array_rope_add : List Nat → List Chunk → Except Nat (Nat × Nat × List Chunk)
  | bases, a =>
    match addWalk a 0 with
    | (some r, _) => .ok r
    | (none, idx) =>
      if idx < INT_MAX >>> 4 then
        match bases with
        | [] => .error ENOMEM
        | b :: bs =>
          match a.getLast? with
          | none => .error EINVAL   -- unreachable: an initialized rope has a chunk
          | some last =>
            match grow last b with
            | .error e => .error e
            | .ok newc => array_rope_add bs (a ++ [newc])
      else .error EMFILE

/-- Modes of `array_rope_get` (`array_rope.h:47-50`). -/
inductive GetOpt where
  | ifSet   -- AR_GO_IF_SET
  | force   -- AR_GO_FORCE
deriving DecidableEq, Repr

/-- The chunk-walking loop of `array_rope_get` (`array_rope.c:189-222`).
`idx` is the non-negative requested index, `d` the running `uint32_t`
capacity sum.  Returns `.inl (err, ep, updated chunks)` when the loop
returned, and `.inr (d, updated chunks, last)` when it ran past the tail,
with the final `d` and the last chunk visited (`none` when the list was
empty, in which case the C variable `last` is left uninitialized). -/
def getWalk (o : GetOpt) (idx : Nat) : List Chunk → Nat →
    (Nat × Option Nat × List Chunk) ⊕ (Nat × List Chunk × Option Chunk)
  | [], d => .inr (d, [], none)
  | c :: rest, d =>
    -- i = (uint32_t)idx - d, in uint32_t arithmetic (line 196)
    let i := (idx + UINT32_MOD - d) % UINT32_MOD
    if c.nalloced < i then
      -- line 198: this chunk does not contain `idx'
      if c.nelts ≠ c.nalloced ∧ o ≠ .force then .inl (ENOENT, none, c :: rest)
      else
        let c' := if c.nelts ≠ c.nalloced then { c with nelts := c.nalloced } else c
        match getWalk o idx rest ((d + c.nalloced) % UINT32_MOD) with
        | .inl (e, p, rest') => .inl (e, p, c' :: rest')
        | .inr (d', rest', lastO) => .inr (d', c' :: rest', some (lastO.getD c'))
    else
      -- line 211: the index is (deemed to be) in this chunk
      if c.nelts < i + 1 then
        if o ≠ .force then .inl (ENOENT, none, c :: rest)
        else .inl (0, some (i * c.elt_align_size + c.base),
                   { c with nelts := i + 1 } :: rest)
      else .inl (0, some (i * c.elt_align_size + c.base), c :: rest)

/-- `array_rope_get` (`array_rope.c:179-229`).  The tail recursion at line
226 re-enters the function on the freshly grown tail, so the model carries a
`fuel` bound (`none` = fuel exhausted) and a fresh blob address for `grow`.
The result triple is `(err, *ep, updated rope)`. -/
def array_rope_get : Nat → List Chunk → GetOpt → Int → Nat →
    Option (Nat × Option Nat × List Chunk)
  | 0, _, _, _, _ => none
  | fuel + 1, a, o, idx, freshBase =>
    if idx < 0 ∨ ((INT_MAX >>> 4 : Nat) : Int) ≤ idx then some (EINVAL, none, a)
    else
      match getWalk o idx.toNat a 0 with
      | .inl r => some r
      | .inr (d, a', lastO) =>
        if o = .force then
          match lastO with
          | none =>
            -- the C code would use `last' uninitialized here (undefined)
            none
          | some last =>
            -- line 224: grow(last), return value ignored
            match grow last freshBase with
            | .error _ =>
              -- growth failed, `last->next' is still NULL: the recursive
              -- call walks an empty rope
              (array_rope_get fuel [] o (idx - (d : Int)) freshBase).map
                (fun r => (r.1, r.2.1, a'))
            | .ok newc =>
              (array_rope_get fuel [newc] o (idx - (d : Int)) freshBase).map
                (fun r => (r.1, r.2.1, a' ++ r.2.2))
        else some (ENOENT, none, a')

/-- The chunk-walking loop of `array_rope_get_index` (`array_rope.c:258-273`).
`d` is the running `uint32_t` capacity sum. -/
def getIndexGo (e : Nat) : List Chunk → Nat → Int
  | [], _ => -1
  | c :: rest, d =>
    if c.base ≤ e ∧ e < c.base + c.nalloced * c.elt_align_size then
      if (e - c.base) % c.elt_align_size ≠ 0 then -1
      else if INT_MAX ≤ d + (e - c.base) / c.elt_align_size then -1
      else ((d + (e - c.base) / c.elt_align_size : Nat) : Int)
    else getIndexGo e rest ((d + c.nalloced) % UINT32_MOD)

/-- `array_rope_get_index` (`array_rope.c:249-274`): reverse-map an element
address to its index, or `-1`. -/
def array_rope_get_index (a : List Chunk) (e : Nat) : Int :=
  if e = 0 then -1 else getIndexGo e a 0

instance {ε α : Type} [DecidableEq ε] [DecidableEq α] : DecidableEq (Except ε α) := fun x y =>
  match x, y with
  | .ok a, .ok b => if h : a = b then .isTrue (by rw [h]) else .isFalse (by simp [h])
  | .error a, .error b => if h : a = b then .isTrue (by rw [h]) else .isFalse (by simp [h])
  | .ok _, .error _ => .isFalse (by simp)
  | .error _, .ok _ => .isFalse (by simp)

/-- Two chunks' element blobs occupy disjoint address ranges, as the C
allocator guarantees for distinct live allocations. -/
def ChunkDisj (c d : Chunk) : Prop :=
  c.base + c.nalloced * c.elt_align_size ≤ d.base ∨
  d.base + d.nalloced * d.elt_align_size ≤ c.base

instance (c d : Chunk) : Decidable (ChunkDisj c d) := by
  unfold ChunkDisj; infer_instance

/-- Total capacity of a list of chunks. -/
def sumCaps (l : List Chunk) : Nat := (l.map Chunk.nalloced).sum

theorem sumCaps_cons (c : Chunk) (l : List Chunk) :
    sumCaps (c :: l) = c.nalloced + sumCaps l := by
  simp [sumCaps]

/-- Where `array_rope_get_index`'s walk lands when the sought address is the
`m`-th element of the chunk `c` and every chunk range is disjoint. -/
theorem getIndexGo_at (c : Chunk) (rest : List Chunk) (m : Nat) :
    ∀ (pre : List Chunk) (d0 : Nat),
    (∀ ch ∈ pre ++ c :: rest, 0 < ch.elt_align_size) →
    (pre ++ c :: rest).Pairwise ChunkDisj →
    m < c.nalloced →
    d0 + sumCaps pre + m < INT_MAX →
    getIndexGo (c.base + m * c.elt_align_size) (pre ++ c :: rest) d0
      = ((d0 + sumCaps pre + m : Nat) : Int) := by
  intro pre
  induction pre with
  | nil =>
    intro d0 halign _ hm hb
    have ha : 0 < c.elt_align_size := halign c (by simp)
    have h2 : c.base + m * c.elt_align_size < c.base + c.nalloced * c.elt_align_size := by
      have := (Nat.mul_lt_mul_right ha).mpr hm
      omega
    simp only [List.nil_append, getIndexGo]
    rw [if_pos ⟨Nat.le_add_right _ _, h2⟩, Nat.add_sub_cancel_left]
    rw [if_neg (by simp [Nat.mul_mod_left]), Nat.mul_div_cancel _ ha]
    simp only [sumCaps, List.map_nil, List.sum_nil, Nat.add_zero] at hb ⊢
    rw [if_neg (by omega)]
  | cons p pre ih =>
    intro d0 halign hdisj hm hb
    obtain ⟨hd, hrest⟩ := List.pairwise_cons.mp hdisj
    have hpc : ChunkDisj p c := hd c (by simp)
    have ha : 0 < c.elt_align_size := halign c (by simp)
    have h2 : c.base + m * c.elt_align_size < c.base + c.nalloced * c.elt_align_size := by
      have := (Nat.mul_lt_mul_right ha).mpr hm
      omega
    have hnot : ¬ (p.base ≤ c.base + m * c.elt_align_size ∧
        c.base + m * c.elt_align_size < p.base + p.nalloced * p.elt_align_size) := by
      rcases hpc with h | h
      · intro hc; omega
      · intro hc; omega
    rw [sumCaps_cons] at hb
    have hIM : INT_MAX < UINT32_MOD := by norm_num [INT_MAX, UINT32_MOD]
    have hmod : (d0 + p.nalloced) % UINT32_MOD = d0 + p.nalloced :=
      Nat.mod_eq_of_lt (by omega)
    have hrec := ih (d0 + p.nalloced)
      (fun ch hch => halign ch (by simp at hch ⊢; tauto)) hrest hm (by omega)
    rw [List.cons_append, show ∀ d, getIndexGo (c.base + m * c.elt_align_size)
          (p :: (pre ++ c :: rest)) d =
        if p.base ≤ c.base + m * c.elt_align_size ∧
            c.base + m * c.elt_align_size < p.base + p.nalloced * p.elt_align_size then
          if (c.base + m * c.elt_align_size - p.base) % p.elt_align_size ≠ 0 then -1
          else if INT_MAX ≤ d + (c.base + m * c.elt_align_size - p.base) / p.elt_align_size then -1
          else ((d + (c.base + m * c.elt_align_size - p.base) / p.elt_align_size : Nat) : Int)
        else getIndexGo (c.base + m * c.elt_align_size) (pre ++ c :: rest)
          ((d + p.nalloced) % UINT32_MOD) from fun _ => rfl,
      if_neg hnot, hmod, hrec, sumCaps_cons]
    omega

/-- Decomposition of a successful pass of `array_rope_add`'s slot search:
the slot claimed is the first free one, the element address and index are
those of that slot, and the guard bounded the accumulated index. -/
theorem addWalk_some :
    ∀ (a : List Chunk) (d0 e i : Nat) (a' : List Chunk) (j : Nat),
    addWalk a d0 = (some (e, i, a'), j) →
    ∃ pre c rest,
      a = pre ++ c :: rest ∧
      a' = pre ++ { c with nelts := c.nelts + 1 } :: rest ∧
      e = c.nelts * c.elt_align_size + c.base ∧
      i = c.nelts + (d0 + sumCaps pre) ∧
      d0 + sumCaps pre < INT_MAX >>> 4 ∧
      c.nelts < c.nalloced := by
  intro a
  induction a with
  | nil => intro d0 e i a' j h; simp [addWalk] at h
  | cons c rest ih =>
    intro d0 e i a' j h
    rw [addWalk] at h
    by_cases hg : d0 < INT_MAX >>> 4
    · rw [if_pos hg] at h
      by_cases hfree : c.nelts < c.nalloced
      · rw [if_pos hfree] at h
        simp only [Prod.mk.injEq, Option.some.injEq] at h
        obtain ⟨⟨he, hi, ha'⟩, -⟩ := h
        refine ⟨[], c, rest, rfl, ha'.symm, he.symm, ?_, ?_, hfree⟩
        · simp [sumCaps, ← hi]
        · simpa [sumCaps] using hg
      · rw [if_neg hfree] at h
        rcases hrec : addWalk rest (d0 + c.nalloced) with ⟨ro, idx2⟩
        rw [hrec] at h
        cases ro with
        | none => simp at h
        | some t =>
          obtain ⟨te, ti, trest⟩ := t
          simp only [Option.map_some', Prod.mk.injEq, Option.some.injEq] at h
          obtain ⟨⟨he, hi, ha'⟩, -⟩ := h
          obtain ⟨pre, c2, rest2, hsplit, hsplit2, he2, hi2, hbound2, hfree2⟩ :=
            ih (d0 + c.nalloced) te ti trest idx2 hrec
          refine ⟨c :: pre, c2, rest2, ?_, ?_, ?_, ?_, ?_, hfree2⟩
          · rw [List.cons_append, ← hsplit]
          · rw [← ha', hsplit2, List.cons_append]
          · rw [← he, he2]
          · rw [← hi, hi2, sumCaps_cons]; omega
          · rw [sumCaps_cons]; omega
    · rw [if_neg hg] at h; simp at h

/-- Round trip for a single successful pass of the slot search. -/
theorem get_index_of_addWalk (a : List Chunk) (e i : Nat) (a' : List Chunk) (j : Nat)
    (h : addWalk a 0 = (some (e, i, a'), j))
    (halign : ∀ ch ∈ a', 0 < ch.elt_align_size)
    (hbase : ∀ ch ∈ a', 0 < ch.base)
    (hdisj : a'.Pairwise ChunkDisj)
    (hi : i < INT_MAX) :
    array_rope_get_index a' e = (i : Int) := by
  obtain ⟨pre, c, rest, -, ha', he, hiv, -, hfree⟩ := addWalk_some a 0 e i a' j h
  subst ha'
  subst he
  subst hiv
  have hal : 0 < c.elt_align_size := by
    simpa using halign { c with nelts := c.nelts + 1 } (by simp)
  have hb : 0 < c.base := by
    simpa using hbase { c with nelts := c.nelts + 1 } (by simp)
  have he0 : ¬ (c.nelts * c.elt_align_size + c.base = 0) := by omega
  have key := getIndexGo_at { c with nelts := c.nelts + 1 } rest c.nelts pre 0
    halign hdisj hfree (by omega)
  dsimp only at key
  rw [array_rope_get_index, if_neg he0, Nat.add_comm (c.nelts * c.elt_align_size) c.base,
    key]
  have harr : 0 + sumCaps pre + c.nelts = c.nelts + (0 + sumCaps pre) := by omega
  rw [harr]

/-- C7 (amended): a successful `array_rope_add` that output element address
`e` and index `i` round-trips through `array_rope_get_index`, provided every
chunk's element alignment size is positive, chunk blobs sit at positive,
pairwise-disjoint address ranges (as the allocator guarantees), and the
returned index is below `INT_MAX` (beyond which `array_rope_get_index`
reports absence, `array_rope.c:268`). -/
theorem array_rope_add_get_index :
    ∀ (bases : List Nat) (a : List Chunk) (e i : Nat) (a' : List Chunk),
    array_rope_add bases a = .ok (e, i, a') →
    (∀ ch ∈ a', 0 < ch.elt_align_size) →
    (∀ ch ∈ a', 0 < ch.base) →
    a'.Pairwise ChunkDisj →
    i < INT_MAX →
    array_rope_get_index a' e = (i : Int) := by
  intro bases
  induction bases with
  | nil =>
    intro a e i a' h halign hbase hdisj hi
    rw [array_rope_add] at h
    rcases hw : addWalk a 0 with ⟨ro, idx⟩
    rw [hw] at h
    cases ro with
    | some t =>
      obtain ⟨te, ti, ta⟩ := t
      simp only [Except.ok.injEq, Prod.mk.injEq] at h
      obtain ⟨h1, h2, h3⟩ := h
      subst h1; subst h2; subst h3
      exact get_index_of_addWalk a te ti ta idx hw halign hbase hdisj hi
    | none =>
      dsimp only at h
      by_cases hg : idx < INT_MAX >>> 4
      · rw [if_pos hg] at h; simp at h
      · rw [if_neg hg] at h; simp at h
  | cons b bs ih =>
    intro a e i a' h halign hbase hdisj hi
    rw [array_rope_add] at h
    rcases hw : addWalk a 0 with ⟨ro, idx⟩
    rw [hw] at h
    cases ro with
    | some t =>
      obtain ⟨te, ti, ta⟩ := t
      simp only [Except.ok.injEq, Prod.mk.injEq] at h
      obtain ⟨h1, h2, h3⟩ := h
      subst h1; subst h2; subst h3
      exact get_index_of_addWalk a te ti ta idx hw halign hbase hdisj hi
    | none =>
      dsimp only at h
      by_cases hg : idx < INT_MAX >>> 4
      · rw [if_pos hg] at h
        rcases hl : a.getLast? with _ | last
        · rw [hl] at h; simp at h
        · rw [hl] at h
          dsimp only at h
          rcases hgr : grow last b with ge | newc
          · rw [hgr] at h; simp at h
          · rw [hgr] at h
            dsimp only at h
            exact ih (a ++ [newc]) e i a' h halign hbase hdisj hi
      · rw [if_neg hg] at h; simp at h

/-- Witness for `array_rope_add_get_index` at a concrete one-chunk rope. -/
theorem array_rope_add_get_index_witness :
    array_rope_add [] [⟨1000, 4, 8, 0⟩] = .ok (1000, 0, [⟨1000, 4, 8, 1⟩]) ∧
    (∀ ch ∈ [(⟨1000, 4, 8, 1⟩ : Chunk)], 0 < ch.elt_align_size) ∧
    (∀ ch ∈ [(⟨1000, 4, 8, 1⟩ : Chunk)], 0 < ch.base) ∧
    List.Pairwise ChunkDisj [(⟨1000, 4, 8, 1⟩ : Chunk)] ∧
    (0 : Nat) < INT_MAX ∧
    array_rope_get_index [⟨1000, 4, 8, 1⟩] 1000 = (0 : Int) :=
  ⟨by decide, by decide, by decide, by decide, by decide,
   array_rope_add_get_index [] [⟨1000, 4, 8, 0⟩] 1000 0 [⟨1000, 4, 8, 1⟩]
     (by decide) (by decide) (by decide) (by decide) (by decide)⟩

/-- C7 counterexample: `array_rope_init` accepts element alignment size 0
(`array_rope.c:70` only rejects sizes above `UINT16_MAX`).  On such a rope a
successful `array_rope_add` returns index 0 and the blob address, but
`array_rope_get_index` on that very address returns -1, because the chunk's
address range `[elts, elts + nalloced*0)` is empty (`array_rope.c:260-262`). -/
theorem array_rope_add_get_index_align0 :
    array_rope_init 0 1000 = .ok [⟨1000, 0, 8, 0⟩] ∧
    array_rope_add [] [⟨1000, 0, 8, 0⟩] = .ok (1000, 0, [⟨1000, 0, 8, 1⟩]) ∧
    array_rope_get_index [⟨1000, 0, 8, 1⟩] 1000 = -1 := by
  refine ⟨by decide, by decide, by decide⟩

/-- C8 (amended): for any chunk whose element alignment size lies in
`[1, UINT16_MAX]` (as `array_rope_init` enforces and `grow` preserves),
`grow` always succeeds — the `EOVERFLOW` guard at `array_rope.c:112-114`
compares `SIZE_MAX / elt_align_size` (at least `SIZE_MAX / UINT16_MAX`)
against the already-wrapped 32-bit capacity plus the header size, and
therefore can never fire — and the successor capacity is
`(c + c/2 + 4) mod 2^32`, which equals `c + c/2 + 4` exactly when that
sum does not overflow `uint32_t`. -/
theorem grow_capacity (c : Chunk) (b : Nat)
    (h1 : 0 < c.elt_align_size) (h2 : c.elt_align_size ≤ UINT16_MAX) :
    grow c b = .ok { base := b, elt_align_size := c.elt_align_size,
                     nalloced := growCap c.nalloced, nelts := 0 } ∧
    growCap c.nalloced < UINT32_MOD ∧
    (c.nalloced + c.nalloced / 2 + 4 < UINT32_MOD →
      growCap c.nalloced = c.nalloced + c.nalloced / 2 + 4) := by
  have hmod : growCap c.nalloced < UINT32_MOD :=
    Nat.mod_lt _ (by norm_num [UINT32_MOD])
  refine ⟨?_, hmod, fun hlt => Nat.mod_eq_of_lt hlt⟩
  rw [grow, if_neg]
  push_neg
  have hstep : SIZE_MAX / UINT16_MAX ≤ SIZE_MAX / c.elt_align_size :=
    Nat.div_le_div_left h2 h1
  have h16 : SIZE_MAX / UINT16_MAX = 281479271743489 := by
    norm_num [SIZE_MAX, UINT16_MAX]
  have h32 : UINT32_MOD = 4294967296 := by norm_num [UINT32_MOD]
  have hsz : SIZEOF_ARRAY_ROPE_S = 32 := rfl
  omega

/-- Witness for `grow_capacity` at the initial chunk shape. -/
theorem grow_capacity_witness :
    (0 : Nat) < 8 ∧ (8 : Nat) ≤ UINT16_MAX ∧
    (grow ⟨1000, 8, 8, 8⟩ 5000 = .ok ⟨5000, 8, growCap 8, 0⟩ ∧
     growCap 8 < UINT32_MOD ∧
     ((8 : Nat) + 8 / 2 + 4 < UINT32_MOD → growCap 8 = 8 + 8 / 2 + 4)) :=
  ⟨by decide, by decide, grow_capacity ⟨1000, 8, 8, 8⟩ 5000 (by decide) (by decide)⟩

set_option maxRecDepth 4000 in
/-- C8 counterexample: starting from the initial capacity 8, the 48th
application of the growth rule reaches capacity 2988261572; there the
mathematical successor capacity 4482392362 exceeds `2^32`, yet `grow`
succeeds (no `EOVERFLOW`) and allocates a chunk whose capacity has wrapped
to 187425066, smaller than its predecessor's. -/
theorem grow_capacity_overflow_unreported :
    capSeq 47 = 2988261572 ∧
    UINT32_MOD ≤ capSeq 47 + capSeq 47 / 2 + 4 ∧
    grow ⟨1000, 8, capSeq 47, capSeq 47⟩ 5000 = .ok ⟨5000, 8, 187425066, 0⟩ ∧
    187425066 < capSeq 47 + capSeq 47 / 2 + 4 := by
  refine ⟨by decide, by decide, by decide, by decide⟩

/-- C10: `array_rope_get` rejects negative indexes and indexes at or above
`INT_MAX >> 4` with `EINVAL`, a null element pointer, and an unchanged
rope, in either mode (`array_rope.c:185-187`). -/
theorem array_rope_get_rejects_bad_index (fuel : Nat) (a : List Chunk) (o : GetOpt)
    (idx : Int) (b : Nat)
    (h : idx < 0 ∨ ((INT_MAX >>> 4 : Nat) : Int) ≤ idx) :
    array_rope_get (fuel + 1) a o idx b = some (EINVAL, none, a) := by
  rw [array_rope_get, if_pos h]

/-- Witness for `array_rope_get_rejects_bad_index` at index -1 and at
`INT_MAX >> 4`, in both modes. -/
theorem array_rope_get_rejects_bad_index_witness :
    ((-1 : Int) < 0 ∨ ((INT_MAX >>> 4 : Nat) : Int) ≤ -1) ∧
    array_rope_get 1 [⟨1000, 4, 8, 0⟩] .ifSet (-1) 0
      = some (EINVAL, none, [⟨1000, 4, 8, 0⟩]) ∧
    (((134217727 : Int) < 0 ∨ ((INT_MAX >>> 4 : Nat) : Int) ≤ 134217727)) ∧
    array_rope_get 1 [⟨1000, 4, 8, 0⟩] .force 134217727 0
      = some (EINVAL, none, [⟨1000, 4, 8, 0⟩]) :=
  ⟨Or.inl (by decide), array_rope_get_rejects_bad_index 0 [⟨1000, 4, 8, 0⟩] .ifSet (-1) 0
     (Or.inl (by decide)),
   Or.inr (by decide), array_rope_get_rejects_bad_index 0 [⟨1000, 4, 8, 0⟩] .force 134217727 0
     (Or.inr (by decide))⟩

/-! ## Hazard pointers (`hazards.c`) -/

structure HazardRec where
  value : Nat   -- volatile void *value; 0 stands for NULL
  inuse : Nat   -- volatile uint32_t inuse
deriving DecidableEq, Repr

/-- `ctp_hazards_gc` (`hazards.c:59-71`): scan the registry list; invoke the
destructor on `value` only if the scan finds no record publishing it.  The
function's only effect is the possible destructor call, so the model returns
whether the destructor was invoked; `value` itself is never modified.  Note
that the scan at lines 64-69 compares `h->value` only — it never reads
`h->inuse`. -/
def ctp_hazards_gc : List HazardRec → Nat → Bool
  | [], _ => true
  | h :: rest, value => if h.value = value then false else ctp_hazards_gc rest value

/-- `ctp_hazards_thread_exit` (`hazards.c:77-81`): retiring a hazard record
clears its `inuse` flag but leaves its published `value` in place. -/
def ctp_hazards_thread_exit (h : HazardRec) : HazardRec := { h with inuse := 0 }

/-- The spec's criterion (section 4.3): some record that is active
(`in_use_flag` nonzero) publishes `pointer`.  Stated from the spec's words,
to compare with what `ctp_hazards_gc` actually tests. -/
def spec_active_publishes (hs : List HazardRec) (value : Nat) : Bool :=
  hs.any fun h => h.inuse != 0 && h.value == value

/-- C6 (amended): `ctp_hazards_gc` invokes the destructor on `value` if and
only if no record in the registry — whether its `inuse` flag is set or not —
publishes `value`; when some record publishes it, the destructor is not
called (and `ctp_hazards_gc` never modifies the value). -/
theorem ctp_hazards_gc_iff (hs : List HazardRec) (v : Nat) :
    ctp_hazards_gc hs v = true ↔ ∀ h ∈ hs, h.value ≠ v := by
  induction hs with
  | nil => simp [ctp_hazards_gc]
  | cons h rest ih =>
    by_cases hv : h.value = v
    · simp [ctp_hazards_gc, hv]
    · simp [ctp_hazards_gc, hv, ih]

/-- C6 counterexample: after `ctp_hazards_thread_exit` retires a record that
published the value 5, no active record publishes 5, yet `ctp_hazards_gc`
still refuses to invoke the destructor on 5. -/
theorem ctp_hazards_gc_blocked_by_retired_record :
    spec_active_publishes [ctp_hazards_thread_exit ⟨5, 1⟩] 5 = false ∧
    ctp_hazards_gc [ctp_hazards_thread_exit ⟨5, 1⟩] 5 = false := by
  exact ⟨by decide, by decide⟩

/-! ## Descriptor-table verifiers (`desc_tbl.c`) -/

/-- `(uint64_t)-1`, the "closed" sentinel verifier (`desc_tbl.c:76`). -/
def UINT64_MAX : Nat := 2 ^ 64 - 1

/-- The shared verifier counter after `k` successful opens: `next_verifier`
starts at 1 (`desc_tbl.c:80`) and each successful `desc_tbl_open` performs
exactly one `atomic_inc_64_nv(&next_verifier)` on its success path
(`desc_tbl.c:298`), a 64-bit fetch-and-increment that wraps modulo `2^64`. -/
def nextVerifierAfter : Nat → Nat
  | 0 => 1
  | k + 1 => (nextVerifierAfter k + 1) % UINT64_MOD

/-- The verifier output by the `k`-th successful open (0-based): the value
returned by the increment at `desc_tbl.c:298`, i.e. the counter after `k+1`
increments. -/
def openVerifier (k : Nat) : Nat := nextVerifierAfter (k + 1)

theorem nextVerifierAfter_closed (k : Nat) :
    nextVerifierAfter k = (1 + k) % UINT64_MOD := by
  induction k with
  | zero => norm_num [nextVerifierAfter, UINT64_MOD]
  | succ k ih =>
    rw [nextVerifierAfter, ih, Nat.mod_add_mod, Nat.add_assoc]

/-- C9 (amended): as long as the total number of successful opens stays
below `2^64 - 2`, every verifier output by `desc_tbl_open` is nonzero and
differs from `(uint64_t)-1`, and verifiers of successive opens strictly
increase (hence are pairwise distinct). -/
theorem openVerifier_good (i j : Nat) (hij : i < j) (hj : j + 2 < UINT64_MOD) :
    openVerifier i ≠ 0 ∧ openVerifier i ≠ UINT64_MAX ∧
    openVerifier i < openVerifier j := by
  have hclose : UINT64_MAX + 1 = UINT64_MOD := by norm_num [UINT64_MAX, UINT64_MOD]
  have hi' : openVerifier i = 2 + i := by
    rw [openVerifier, nextVerifierAfter_closed, Nat.mod_eq_of_lt (by omega)]
    omega
  have hj' : openVerifier j = 2 + j := by
    rw [openVerifier, nextVerifierAfter_closed, Nat.mod_eq_of_lt (by omega)]
    omega
  refine ⟨by omega, by omega, by omega⟩

/-- Witness for `openVerifier_good`: the first two opens yield verifiers
2 < 3. -/
theorem openVerifier_good_witness :
    (0 : Nat) < 1 ∧ 1 + 2 < UINT64_MOD ∧
    (openVerifier 0 ≠ 0 ∧ openVerifier 0 ≠ UINT64_MAX ∧
     openVerifier 0 < openVerifier 1) :=
  ⟨by decide, by norm_num [UINT64_MOD],
   openVerifier_good 0 1 (by decide) (by norm_num [UINT64_MOD])⟩

/-- C9 counterexample: the counter wraps modulo `2^64`, so the
`(2^64 - 3)`-th open (0-based) outputs the sentinel `(uint64_t)-1`, the next
one outputs 0, and monotonicity fails there. -/
theorem openVerifier_wraps :
    openVerifier (2 ^ 64 - 3) = UINT64_MAX ∧
    openVerifier (2 ^ 64 - 2) = 0 ∧
    ¬ openVerifier (2 ^ 64 - 3) < openVerifier (2 ^ 64 - 2) := by
  have h1 : openVerifier (2 ^ 64 - 3) = UINT64_MAX := by
    rw [openVerifier, nextVerifierAfter_closed]
    norm_num [UINT64_MOD, UINT64_MAX]
  have h2 : openVerifier (2 ^ 64 - 2) = 0 := by
    rw [openVerifier, nextVerifierAfter_closed]
    norm_num [UINT64_MOD]
  refine ⟨h1, h2, by rw [h1, h2]; simp⟩

/-! ## Thread-safe global variable (`thread_safe_global.c`)

The cell state is a record of the two slots, the version counter, and a
wrapper heap (wrapper id = index into `heap`; `free` marks the entry dead).
The embedding is of quiescent executions: one thread runs one operation to
completion with no interleaving, so every atomic read returns the value most
recently stored.  Blocking (the writer's drain wait) and `assert` failures
are reported as flags in the result records.
-/

/-- `struct vwrapper` (`thread_safe_global_priv.h:21-26`).  `hasDtor` says
whether the destructor pointer copied from the var is non-NULL; `alive` is
the heap model's allocation bit, cleared by `free(wrapper)`. -/
structure VWrapper where
  ptr : Nat       -- void *ptr; 0 stands for NULL
  nref : Nat      -- uint32_t nref
  version : Nat   -- uint64_t version
  hasDtor : Bool
  alive : Bool
deriving DecidableEq, Repr

/-- `struct var` (`thread_safe_global_priv.h:28-33`): one slot.  The fixed
`other` cross-pointer set up at init is represented by index arithmetic
(`vars[i].other = vars[1 - i]`), as it never changes. -/
structure Slot where
  nreaders : Nat          -- uint32_t nreaders
  wrapper : Option Nat    -- struct vwrapper *wrapper (heap index)
  version : Nat           -- uint64_t version
deriving DecidableEq, Repr

/-- `struct pthread_var_np` (`thread_safe_global_priv.h:35-45`) together
with the wrapper heap.  Mutexes and condvars carry no state the sequential
embedding needs; the signals they transport are reported in the results. -/
structure Cell where
  heap : List VWrapper
  nextVersion : Nat       -- uint64_t next_version
  slot0 : Slot            -- vars[0]
  slot1 : Slot            -- vars[1]
  hasDtor : Bool          -- dtor != NULL
deriving DecidableEq, Repr

/-- `vp->vars[i]` for `i` in {0, 1}. -/
def Cell.var (s : Cell) (i : Nat) : Slot :=
  if i = 0 then s.slot0 else s.slot1

def Cell.setVar (s : Cell) (i : Nat) (sl : Slot) : Cell :=
  if i = 0 then { s with slot0 := sl } else { s with slot1 := sl }

/-- `wrapper_free` (`thread_safe_global.c:129-139`): NULL is ignored;
otherwise `nref` is decremented (`atomic_dec_32_nv`, wrapping `uint32_t`
arithmetic) and on reaching zero the destructor runs on the payload and the
wrapper is freed.  Returns the updated heap and the payloads handed to the
destructor. -/
def wrapper_free (heap : List VWrapper) (w : Option Nat) : List VWrapper × List Nat :=
  match w with
  | none => (heap, [])
  | some wid =>
    match heap.get? wid with
    | none => (heap, [])   -- dangling wrapper pointer: not a reachable state
    | some wr =>
      if 0 < (wr.nref + (UINT32_MOD - 1)) % UINT32_MOD then
        (heap.set wid { wr with nref := (wr.nref + (UINT32_MOD - 1)) % UINT32_MOD }, [])
      else
        (heap.set wid { wr with nref := 0, alive := false },
         if wr.hasDtor then [wr.ptr] else [])

/-- `pthread_var_init_np` (`thread_safe_global.c:164-233`), with the
OS-resource creation assumed to succeed: zeroed counters, both slots empty,
`next_version = 0`. -/
def pthread_var_init_np (hasDtor : Bool) : Cell :=
  { heap := [], nextVersion := 0,
    slot0 := { nreaders := 0, wrapper := none, version := 0 },
    slot1 := { nreaders := 0, wrapper := none, version := 0 },
    hasDtor := hasDtor }

structure SetResult where
  err : Nat
  newVersion : Option Nat  -- the value stored through *new_version (none: untouched)
  state : Cell
  signaledFirst : Bool     -- first-write waiters signalled (lines 602-605)
  dtorCalls : List Nat     -- payloads destroyed during the call
  blocked : Bool           -- the writer parked forever on the drain condvar
  aborted : Bool           -- an assert failed
deriving DecidableEq, Repr

/-- `pthread_var_set_np` (`thread_safe_global.c:539-655`), sequential
embedding.  Allocation succeeds; the new wrapper is appended to the heap.
The drain loop (lines 620-634) terminates in a quiescent execution only when
the target slot already has no readers; otherwise the writer waits forever
(`blocked`).  The `assert`s of the source surface as `aborted`. -/
def pthread_var_set_np (s : Cell) (cfdata : Nat) : SetResult :=
  if cfdata = NULL then   -- line 553
    { err := EINVAL, newVersion := none, state := s, signaledFirst := false,
      dtorCalls := [], blocked := false, aborted := false }
  else
    -- lines 562-571: calloc the wrapper; line 579: wrapper->version =
    -- next_version (stable under the write lock)
    let wid := s.heap.length
    let nv := s.nextVersion
    -- line 582: v = vp->vars[(nv + 1) & 1].other = vars[nv & 1]
    let t := s.var (nv % 2)
    match nv, t.wrapper with
    | 0, _ =>
      -- lines 585-607: first write.  The loop installs the wrapper on both
      -- slots, incrementing nref once per slot (to 2); the CAS results are
      -- asserted to be the NULL old_wrapper, i.e. both slots were empty.
      -- Then next_version is bumped 0 -> 1 and the waiters signalled.
      if s.slot0.wrapper = none ∧ s.slot1.wrapper = none then
        { err := 0, newVersion := some 0,
          state := { s with
            heap := s.heap ++ [{ ptr := cfdata, nref := 2, version := 0,
                                 hasDtor := s.hasDtor, alive := true }],
            slot0 := { s.slot0 with wrapper := some wid, version := 0 },
            slot1 := { s.slot1 with wrapper := some wid, version := 0 },
            nextVersion := (0 + 1) % UINT64_MOD },
          signaledFirst := true, dtorCalls := [], blocked := false,
          aborted := false }
      else  -- assert(tmp == old_wrapper && tmp == NULL) fails (line 594)
        { err := 0, newVersion := some 0, state := s, signaledFirst := false,
          dtorCalls := [], blocked := false, aborted := true }
    | _ + 1, none =>
      -- assert(old_wrapper != NULL ...) fails (line 612)
      { err := 0, newVersion := some nv, state := s, signaledFirst := false,
        dtorCalls := [], blocked := false, aborted := true }
    | _ + 1, some ow =>
      match s.heap.get? ow with
      | none =>  -- dangling slot wrapper: not a reachable state
        { err := 0, newVersion := some nv, state := s, signaledFirst := false,
          dtorCalls := [], blocked := false, aborted := true }
      | some owr =>
        if owr.nref = 0 then
          -- assert(... old_wrapper->nref > 0) fails (line 612)
          { err := 0, newVersion := some nv, state := s, signaledFirst := false,
            dtorCalls := [], blocked := false, aborted := true }
        else
          -- line 609: nref = atomic_inc_32_nv(&wrapper->nref) == 1
          let heap1 := s.heap ++ [{ ptr := cfdata, nref := 1, version := nv,
                                    hasDtor := s.hasDtor, alive := true }]
          if 0 < t.nreaders then
            -- lines 614-634: wait until the slot is quiescent; no reader can
            -- drain it in a sequential execution
            { err := 0, newVersion := some nv, state := { s with heap := heap1 },
              signaledFirst := false, dtorCalls := [], blocked := true,
              aborted := false }
          else
            -- lines 642-647: install the wrapper, set the slot version, bump
            -- next_version; asserts check the exchange, the increment, and
            -- v->version > v->other->version
            let s2 := Cell.setVar { s with heap := heap1 } (nv % 2)
              { t with wrapper := some wid, version := nv }
            let s3 := { s2 with nextVersion := (nv + 1) % UINT64_MOD }
            if (nv + 1) % UINT64_MOD = nv + 1 ∧ (s.var (1 - nv % 2)).version < nv then
              -- line 651: wrapper_free(old_wrapper)
              let fr := wrapper_free s3.heap (some ow)
              { err := 0, newVersion := some nv, state := { s3 with heap := fr.1 },
                signaledFirst := false, dtorCalls := fr.2, blocked := false,
                aborted := false }
            else  -- asserts at lines 646-647 fail
              { err := 0, newVersion := some nv, state := s3,
                signaledFirst := false, dtorCalls := [], blocked := false,
                aborted := true }

structure GetResult where
  err : Nat
  res : Nat           -- *res (0 stands for NULL)
  version : Nat       -- *version
  state : Cell
  cache : Option Nat  -- the thread's tkey value after the call
  fastPath : Bool     -- returned from the fast path (lines 311-326)
  atomicOps : Nat     -- atomic operations performed (those inside asserts not counted)
  signaledWriter : Bool
  dtorCalls : List Nat
  aborted : Bool
deriving DecidableEq, Repr

/-- `atomic_inc_32_nv(&vars[i].nreaders)`. -/
def incReaders (s : Cell) (i : Nat) : Cell :=
  s.setVar i { s.var i with nreaders := ((s.var i).nreaders + 1) % UINT32_MOD }

/-- `atomic_dec_32_nv(&vars[i].nreaders)`; the `Bool` reports whether the
decrement hit zero (the signal-the-writer condition). -/
def decReaders (s : Cell) (i : Nat) : Cell × Bool :=
  (s.setVar i { s.var i with
      nreaders := ((s.var i).nreaders + (UINT32_MOD - 1)) % UINT32_MOD },
   ((s.var i).nreaders + (UINT32_MOD - 1)) % UINT32_MOD == 0)

/-- Lines 409-469 of `pthread_var_get_np` (label `got_a_slot` onwards).
`version` is the local `*version`, `vi` the chosen slot index, `gotBoth`
whether both slots' reader counts were raised, `ops` the atomic operations
performed so far. -/
def got_a_slot (s : Cell) (cache : Option Nat) (version : Nat) (vi : Nat)
    (gotBoth : Bool) (ops : Nat) : GetResult :=
  match (s.var vi).wrapper with
  | none =>
    -- lines 410-421: nothing in the slot; assert(*version == 0), then
    -- release the slot(s), signalling the writer on a zero transition
    let r1 := if gotBoth then decReaders s (1 - vi) else (s, false)
    let r2 := decReaders r1.1 vi
    { err := 0, res := NULL, version := version, state := r2.1, cache := cache,
      fastPath := false, atomicOps := ops + (if gotBoth then 1 else 0) + 1,
      signaledWriter := (gotBoth && r1.2) || r2.2, dtorCalls := [],
      aborted := version != 0 }
  | some w =>
    match s.heap.get? w with
    | none =>  -- dangling slot wrapper: not a reachable state
      { err := 0, res := NULL, version := version, state := s, cache := cache,
        fastPath := false, atomicOps := ops, signaledWriter := false,
        dtorCalls := [], aborted := true }
    | some wr =>
      -- line 427: nref = atomic_inc_32_nv(&v->wrapper->nref); assert(nref > 1)
      -- lines 429-431: *version = wrapper version; *res = wrapper payload
      -- (an atomic read); assert(*res != NULL)
      let nref := (wr.nref + 1) % UINT32_MOD
      let s2 := { s with heap := s.heap.set w { wr with nref := nref } }
      -- lines 449-452: release the slot(s); signal the writer if a count
      -- dropped to zero
      let r1 := if gotBoth then decReaders s2 (1 - vi) else (s2, false)
      let r2 := decReaders r1.1 vi
      -- lines 464-468: drop the previously cached wrapper and cache this
      -- one.  The test `*res != pthread_getspecific(vp->tkey)' compares the
      -- payload pointer with the cached wrapper pointer — distinct live
      -- allocations — so the release always happens.
      let fr := wrapper_free r2.1.heap cache
      { err := 0, res := wr.ptr, version := wr.version,
        state := { r2.1 with heap := fr.1 }, cache := some w,
        fastPath := false,
        atomicOps := ops + 2 + (if gotBoth then 1 else 0) + 1 +
          (if cache.isSome then 1 else 0),
        signaledWriter := (gotBoth && r1.2) || r2.2, dtorCalls := fr.2,
        aborted := (nref ≤ 1 : Bool) || (wr.ptr == NULL) }

/-- The slow path of `pthread_var_get_np` (lines 328-469).  `ops0` counts
the atomic operations already performed by the fast-path test. -/
def pthread_var_get_slow (s : Cell) (cache : Option Nat) (ops0 : Nat) : GetResult :=
  -- line 329: *version = atomic_cas_64(&vp->next_version, 0, 0)
  if s.nextVersion = 0 then
    -- lines 330-334: not set yet: success, NULL value, version 0
    { err := 0, res := NULL, version := 0, state := s, cache := cache,
      fastPath := false, atomicOps := ops0 + 1, signaledWriter := false,
      dtorCalls := [], aborted := false }
  else
    let version := s.nextVersion - 1   -- line 335
    let vi := version % 2              -- line 338
    let s1 := incReaders s vi          -- line 350
    -- line 353 compares the re-read next_version with the already
    -- *decremented* `*version`; the counter is monotonic, so the two are
    -- never equal and the `goto got_a_slot` confirmation is dead code
    if s1.nextVersion = version then
      got_a_slot s1 cache version vi false (ops0 + 3)
    else
      -- lines 373-407: treat the read as having lost a race: raise the
      -- other slot's count first (keeping both slots pinned), re-read the
      -- version, re-select the slot
      let s2 := incReaders s1 (1 - vi)   -- line 392
      let vers2 := s2.nextVersion        -- line 402
      if vers2 ≤ version then
        -- assert(vers2 > *version) at line 403 fails; with a monotonic
        -- counter this cannot happen (sequentially vers2 = version + 1)
        { err := 0, res := NULL, version := version, state := s2,
          cache := cache, fastPath := false, atomicOps := ops0 + 5,
          signaledWriter := false, dtorCalls := [], aborted := true }
      else
        got_a_slot s2 cache (vers2 - 1) ((vers2 - 1) % 2) true (ops0 + 5)

/-- `pthread_var_get_np` (`thread_safe_global.c:291-470`), sequential
embedding.  `cache` is the calling thread's `tkey` value.  The fast path
(lines 311-326, compiled in since `NO_FAST_PATH` is undefined) fires when
`wrapper->version == 1 + next_version` and then outputs version
`1 + wrapper->version` and the cached payload, at the cost of one atomic
read of `next_version`. -/
def pthread_var_get_np (s : Cell) (cache : Option Nat) : GetResult :=
  match cache with
  | some w =>
    match s.heap.get? w with
    | some wr =>
      if wr.version = (1 + s.nextVersion) % UINT64_MOD then
        { err := 0, res := wr.ptr, version := (1 + wr.version) % UINT64_MOD,
          state := s, cache := cache, fastPath := true, atomicOps := 1,
          signaledWriter := false, dtorCalls := [], aborted := false }
      else pthread_var_get_slow s cache 1
    | none =>
      -- dangling cached wrapper pointer: dereferencing it is undefined
      -- behaviour in C; not a reachable state
      { err := 0, res := NULL, version := 0, state := s, cache := cache,
        fastPath := false, atomicOps := 0, signaledWriter := false,
        dtorCalls := [], aborted := true }
  | none => pthread_var_get_slow s cache 0

/-! ### Cell invariants -/

/-- Invariants of a quiescent, reachable cell state, as used by the write
path: no reader currently holds a slot; the version counter is nowhere near
the 64-bit wrap (no feasible execution performs on the order of `2^64`
sets); before the first write both slots are empty; after it, the current
slot holds a live wrapper carrying version `next_version - 1`, a positive
reference count, and a non-NULL payload, and the to-be-written slot also
holds a referenced wrapper. -/
structure CellWF (s : Cell) : Prop where
  r0 : s.slot0.nreaders = 0
  r1 : s.slot1.nreaders = 0
  nv_small : s.nextVersion + 2 < UINT64_MOD
  empty0 : s.nextVersion = 0 → s.slot0.wrapper = none
  empty1 : s.nextVersion = 0 → s.slot1.wrapper = none
  cur : 0 < s.nextVersion →
    ∃ w wr, (s.var ((s.nextVersion - 1) % 2)).wrapper = some w ∧
      s.heap.get? w = some wr ∧ 0 < wr.nref ∧
      (s.var ((s.nextVersion - 1) % 2)).version = s.nextVersion - 1
  tgt : 0 < s.nextVersion →
    ∃ w wr, (s.var (s.nextVersion % 2)).wrapper = some w ∧
      s.heap.get? w = some wr ∧ 0 < wr.nref

/-- Validity of a thread's cached wrapper (`tkey`) against a cell state: if
present it refers to a heap wrapper whose version is below the published
`next_version` (every cached wrapper was read out of a slot when its version
was current, and `next_version` only grows). -/
def CacheOK (s : Cell) : Option Nat → Prop
  | none => True
  | some w => ∃ wr, s.heap.get? w = some wr ∧ wr.version < s.nextVersion

/-! ### Helper lemmas about the state operations -/

theorem var_setVar_same (s : Cell) (i : Nat) (sl : Slot) :
    (s.setVar i sl).var i = sl := by
  by_cases hi : i = 0 <;> simp [Cell.var, Cell.setVar, hi]

theorem setVar_nextVersion (s : Cell) (i : Nat) (sl : Slot) :
    (s.setVar i sl).nextVersion = s.nextVersion := by
  by_cases hi : i = 0 <;> simp [Cell.setVar, hi]

theorem setVar_heap (s : Cell) (i : Nat) (sl : Slot) :
    (s.setVar i sl).heap = s.heap := by
  by_cases hi : i = 0 <;> simp [Cell.setVar, hi]

theorem incReaders_nextVersion (s : Cell) (i : Nat) :
    (incReaders s i).nextVersion = s.nextVersion := by
  rw [incReaders, setVar_nextVersion]

theorem incReaders_heap (s : Cell) (i : Nat) :
    (incReaders s i).heap = s.heap := by
  rw [incReaders, setVar_heap]

theorem incReaders_var_wrapper (s : Cell) (i j : Nat) :
    ((incReaders s i).var j).wrapper = (s.var j).wrapper := by
  rw [incReaders]
  by_cases hi : i = 0 <;> by_cases hj : j = 0 <;>
    simp [Cell.var, Cell.setVar, hi, hj]

theorem var_nreaders_zero (s : Cell) (i : Nat) (h0 : s.slot0.nreaders = 0)
    (h1 : s.slot1.nreaders = 0) : (s.var i).nreaders = 0 := by
  by_cases hi : i = 0 <;> simp [Cell.var, hi, h0, h1]

/-- What a get returns on a state whose current slot (the one selected by
the parity of `next_version - 1`) holds a live wrapper `w` at heap index
`wid` carrying the current version: the wrapper's payload and version, with
no abort, through the slow path.  The reading thread's cache only needs to
be valid for the state. -/
theorem get_after_publish (s : Cell) (wid : Nat) (w : VWrapper) (cache : Option Nat)
    (hv : 0 < s.nextVersion)
    (hnv : s.nextVersion + 1 < UINT64_MOD)
    (hslot : (s.var ((s.nextVersion - 1) % 2)).wrapper = some wid)
    (hheap : s.heap.get? wid = some w)
    (hwv : w.version = s.nextVersion - 1)
    (hwn : 0 < w.nref) (hwn2 : w.nref + 1 < UINT32_MOD)
    (hwp : w.ptr ≠ NULL)
    (hcache : CacheOK s cache) :
    (pthread_var_get_np s cache).err = 0 ∧
    (pthread_var_get_np s cache).res = w.ptr ∧
    (pthread_var_get_np s cache).version = s.nextVersion - 1 ∧
    (pthread_var_get_np s cache).fastPath = false ∧
    (pthread_var_get_np s cache).aborted = false := by
  have hno : ¬ ((w.nref + 1) % UINT32_MOD ≤ 1) := by
    rw [Nat.mod_eq_of_lt hwn2]; omega
  have hwp0 : ¬ w.ptr = 0 := by simpa [NULL] using hwp
  have hslow : ∀ ops0,
      (pthread_var_get_slow s cache ops0).err = 0 ∧
      (pthread_var_get_slow s cache ops0).res = w.ptr ∧
      (pthread_var_get_slow s cache ops0).version = s.nextVersion - 1 ∧
      (pthread_var_get_slow s cache ops0).fastPath = false ∧
      (pthread_var_get_slow s cache ops0).aborted = false := by
    intro ops0
    rw [pthread_var_get_slow, if_neg (by omega)]
    simp only [incReaders_nextVersion]
    rw [if_neg (by omega), if_neg (by omega)]
    rw [got_a_slot]
    simp only [incReaders_var_wrapper, incReaders_heap]
    simp only [hslot]
    simp only [hheap]
    simp [hno, hwp0, hwv, NULL]
  match cache with
  | none => exact hslow 0
  | some cw =>
    obtain ⟨wr, hcw, hcv⟩ := hcache
    rw [pthread_var_get_np]
    simp only [hcw]
    rw [if_neg (by rw [Nat.mod_eq_of_lt (by omega)]; omega)]
    exact hslow 1

theorem wrapper_free_get_ne (heap : List VWrapper) (ow wid : Nat) (hne : ow ≠ wid) :
    (wrapper_free heap (some ow)).1.get? wid = heap.get? wid := by
  rw [wrapper_free]
  rcases h : heap.get? ow with _ | wr
  · rfl
  · dsimp only
    split
    · exact List.get?_set_ne _ _ hne
    · exact List.get?_set_ne _ _ hne

/-- The first write (`next_version = 0`, both slots empty), exactly:
`thread_safe_global.c:585-607`. -/
theorem pthread_var_set_np_first_eq (s : Cell) (p : Nat) (hp : ¬ p = NULL)
    (h0 : s.nextVersion = 0) (hs0 : s.slot0.wrapper = none)
    (hs1 : s.slot1.wrapper = none) :
    pthread_var_set_np s p =
      { err := 0, newVersion := some 0,
        state := { s with
          heap := s.heap ++ [{ ptr := p, nref := 2, version := 0,
                               hasDtor := s.hasDtor, alive := true }],
          slot0 := { s.slot0 with wrapper := some s.heap.length, version := 0 },
          slot1 := { s.slot1 with wrapper := some s.heap.length, version := 0 },
          nextVersion := 1 },
        signaledFirst := true, dtorCalls := [], blocked := false,
        aborted := false } := by
  rw [pthread_var_set_np, if_neg hp]
  simp only [h0]
  rw [if_pos ⟨hs0, hs1⟩]
  norm_num [UINT64_MOD]

/-- A subsequent write (`next_version > 0`) on a quiescent well-formed cell:
the relevant facts about the result, per `thread_safe_global.c:609-655`. -/
theorem pthread_var_set_np_next_spec (s : Cell) (p : Nat) (ow : Nat) (owr : VWrapper)
    (hp : ¬ p = NULL) (h0 : 0 < s.nextVersion)
    (hnv : s.nextVersion + 1 < UINT64_MOD)
    (htw : (s.var (s.nextVersion % 2)).wrapper = some ow)
    (hohw : s.heap.get? ow = some owr) (hon : 0 < owr.nref)
    (hnr : (s.var (s.nextVersion % 2)).nreaders = 0)
    (hover : (s.var (1 - s.nextVersion % 2)).version < s.nextVersion) :
    (pthread_var_set_np s p).err = 0 ∧
    (pthread_var_set_np s p).blocked = false ∧
    (pthread_var_set_np s p).aborted = false ∧
    (pthread_var_set_np s p).newVersion = some s.nextVersion ∧
    (pthread_var_set_np s p).state.nextVersion = s.nextVersion + 1 ∧
    ((pthread_var_set_np s p).state.var (s.nextVersion % 2)).wrapper
      = some s.heap.length ∧
    (pthread_var_set_np s p).state.heap.get? s.heap.length =
      some { ptr := p, nref := 1, version := s.nextVersion,
             hasDtor := s.hasDtor, alive := true } ∧
    (pthread_var_set_np s p).signaledFirst = false := by
  obtain ⟨m, hm⟩ : ∃ m, s.nextVersion = m + 1 := ⟨s.nextVersion - 1, by omega⟩
  have how : ow < s.heap.length := (List.get?_eq_some.mp hohw).1
  have hwide : ow ≠ s.heap.length := by omega
  have hmod : (s.nextVersion + 1) % UINT64_MOD = s.nextVersion + 1 :=
    Nat.mod_eq_of_lt (by omega)
  rw [pthread_var_set_np, if_neg hp]
  simp only [hm] at htw hohw hnr hover hmod ⊢
  simp only [htw, hohw]
  rw [if_neg (by omega), if_neg (by simp [hnr]), if_pos ⟨hmod, hover⟩]
  refine ⟨rfl, rfl, rfl, rfl, hmod, ?_, ?_, rfl⟩
  · rcases Nat.mod_two_eq_zero_or_one (m + 1) with hpar | hpar <;>
      simp [Cell.var, Cell.setVar, hpar]
  · rw [setVar_heap, wrapper_free_get_ne _ _ _ hwide]
    exact List.get?_concat_length _ _

/-- The component-wise reading of `pthread_var_set_np_first_eq`. -/
theorem pthread_var_set_np_first_spec (s : Cell) (p : Nat) (hp : ¬ p = NULL)
    (h0 : s.nextVersion = 0) (hs0 : s.slot0.wrapper = none)
    (hs1 : s.slot1.wrapper = none) :
    (pthread_var_set_np s p).err = 0 ∧
    (pthread_var_set_np s p).blocked = false ∧
    (pthread_var_set_np s p).aborted = false ∧
    (pthread_var_set_np s p).newVersion = some 0 ∧
    (pthread_var_set_np s p).state.nextVersion = 1 ∧
    ((pthread_var_set_np s p).state.var 0).wrapper = some s.heap.length ∧
    (pthread_var_set_np s p).state.heap.get? s.heap.length =
      some { ptr := p, nref := 2, version := 0, hasDtor := s.hasDtor, alive := true } ∧
    (pthread_var_set_np s p).signaledFirst = true ∧
    (pthread_var_set_np s p).state.slot0.wrapper = some s.heap.length ∧
    (pthread_var_set_np s p).state.slot1.wrapper = some s.heap.length := by
  rw [pthread_var_set_np_first_eq s p hp h0 hs0 hs1]
  exact ⟨rfl, rfl, rfl, rfl, rfl, by simp [Cell.var],
    List.get?_concat_length _ _, rfl, rfl, rfl⟩

/-- C1: on a quiescent well-formed cell, a set of a non-NULL payload `p`
succeeds and outputs version `v = next_version`; a get performed after the
set completes, with no intervening set — by any thread whose cached wrapper
is valid for the resulting state — succeeds and returns exactly the payload
`p` and that very version `v`. -/
theorem set_then_get (s : Cell) (p : Nat) (cache : Option Nat)
    (hWF : CellWF s) (hp : ¬ p = NULL)
    (hcache : CacheOK (pthread_var_set_np s p).state cache) :
    (pthread_var_set_np s p).err = 0 ∧
    (pthread_var_set_np s p).blocked = false ∧
    (pthread_var_set_np s p).aborted = false ∧
    (pthread_var_set_np s p).newVersion = some s.nextVersion ∧
    (pthread_var_get_np (pthread_var_set_np s p).state cache).err = 0 ∧
    (pthread_var_get_np (pthread_var_set_np s p).state cache).res = p ∧
    (pthread_var_get_np (pthread_var_set_np s p).state cache).version
      = s.nextVersion ∧
    (pthread_var_get_np (pthread_var_set_np s p).state cache).aborted = false := by
  by_cases h0 : s.nextVersion = 0
  · obtain ⟨h1, h2, h3, h4, h5, h6, h7, -, -, -⟩ :=
      pthread_var_set_np_first_spec s p hp h0 (hWF.empty0 h0) (hWF.empty1 h0)
    have hg := get_after_publish (pthread_var_set_np s p).state s.heap.length
      { ptr := p, nref := 2, version := 0, hasDtor := s.hasDtor, alive := true }
      cache (by rw [h5]; omega) (by rw [h5]; norm_num [UINT64_MOD])
      (by rw [h5]; simpa using h6) h7 (by rw [h5]) (by norm_num)
      (by norm_num [UINT32_MOD]) (by simpa [NULL] using hp) hcache
    refine ⟨h1, h2, h3, by rw [h4, h0], hg.1, by simpa using hg.2.1, ?_,
      hg.2.2.2.2⟩
    rw [hg.2.2.1, h5, h0]
  · have hv0 : 0 < s.nextVersion := Nat.pos_of_ne_zero h0
    obtain ⟨cw, cwr, hcw, hcwh, hcwn, hcwv⟩ := hWF.cur hv0
    obtain ⟨tw, twr, htw, htwh, htwn⟩ := hWF.tgt hv0
    have hidx : (s.nextVersion - 1) % 2 = 1 - s.nextVersion % 2 := by omega
    have hover : (s.var (1 - s.nextVersion % 2)).version < s.nextVersion := by
      rw [← hidx, hcwv]; omega
    have hnr := var_nreaders_zero s (s.nextVersion % 2) hWF.r0 hWF.r1
    have hnv1 : s.nextVersion + 1 < UINT64_MOD := by
      have := hWF.nv_small; omega
    obtain ⟨h1, h2, h3, h4, h5, h6, h7, -⟩ :=
      pthread_var_set_np_next_spec s p tw twr hp hv0 hnv1 htw htwh htwn hnr hover
    have hg := get_after_publish (pthread_var_set_np s p).state s.heap.length
      { ptr := p, nref := 1, version := s.nextVersion, hasDtor := s.hasDtor,
        alive := true }
      cache (by rw [h5]; omega) (by rw [h5]; have := hWF.nv_small; omega)
      (by rw [h5]; simpa using h6) h7 (by rw [h5]; simp) (by norm_num)
      (by norm_num [UINT32_MOD]) (by simpa [NULL] using hp) hcache
    refine ⟨h1, h2, h3, h4, hg.1, by simpa using hg.2.1, ?_, hg.2.2.2.2⟩
    rw [hg.2.2.1, h5]
    omega

/-- Witness for `set_then_get`: a fresh cell, payload 7, reading thread with
an empty cache.  The set outputs version 0 and the get returns (7, 0). -/
theorem set_then_get_witness :
    CellWF (pthread_var_init_np true) ∧ ¬ (7 : Nat) = NULL ∧
    CacheOK (pthread_var_set_np (pthread_var_init_np true) 7).state none ∧
    ((pthread_var_set_np (pthread_var_init_np true) 7).err = 0 ∧
     (pthread_var_set_np (pthread_var_init_np true) 7).blocked = false ∧
     (pthread_var_set_np (pthread_var_init_np true) 7).aborted = false ∧
     (pthread_var_set_np (pthread_var_init_np true) 7).newVersion
       = some (pthread_var_init_np true).nextVersion ∧
     (pthread_var_get_np (pthread_var_set_np (pthread_var_init_np true) 7).state
        none).err = 0 ∧
     (pthread_var_get_np (pthread_var_set_np (pthread_var_init_np true) 7).state
        none).res = 7 ∧
     (pthread_var_get_np (pthread_var_set_np (pthread_var_init_np true) 7).state
        none).version = (pthread_var_init_np true).nextVersion ∧
     (pthread_var_get_np (pthread_var_set_np (pthread_var_init_np true) 7).state
        none).aborted = false) := by
  have hWF : CellWF (pthread_var_init_np true) :=
    { r0 := rfl, r1 := rfl, nv_small := by decide,
      empty0 := fun _ => rfl, empty1 := fun _ => rfl,
      cur := fun h => absurd h (by decide),
      tgt := fun h => absurd h (by decide) }
  exact ⟨hWF, by decide, trivial,
    set_then_get (pthread_var_init_np true) 7 none hWF (by decide) trivial⟩

/-- C2 (code defect witness): init; set(7) — version 0, `next_version` now
1; a get that caches the version-0 wrapper; then a second get.  The second
get's cached wrapper satisfies the claim's fast-path premise
`version + 1 == next_version`, and it does return the cached pair (7, 0) —
but through the slow path, with many atomic operations: the test at
`thread_safe_global.c:320` reads `wrapper->version == 1 + next_version`,
which never holds in a reachable state (and had it held, line 321 would
have output version `1 + wrapper->version`, not the cached version). -/
theorem get_fast_path_never_taken :
    (pthread_var_get_np (pthread_var_set_np (pthread_var_init_np true) 7).state
        none).cache = some 0 ∧
    ((pthread_var_get_np (pthread_var_set_np (pthread_var_init_np true) 7).state
        none).state.heap.get? 0).map VWrapper.version = some 0 ∧
    (pthread_var_get_np (pthread_var_set_np (pthread_var_init_np true) 7).state
        none).state.nextVersion = 0 + 1 ∧
    (pthread_var_get_np
        (pthread_var_get_np (pthread_var_set_np (pthread_var_init_np true) 7).state
          none).state
        (pthread_var_get_np (pthread_var_set_np (pthread_var_init_np true) 7).state
          none).cache).err = 0 ∧
    (pthread_var_get_np
        (pthread_var_get_np (pthread_var_set_np (pthread_var_init_np true) 7).state
          none).state
        (pthread_var_get_np (pthread_var_set_np (pthread_var_init_np true) 7).state
          none).cache).res = 7 ∧
    (pthread_var_get_np
        (pthread_var_get_np (pthread_var_set_np (pthread_var_init_np true) 7).state
          none).state
        (pthread_var_get_np (pthread_var_set_np (pthread_var_init_np true) 7).state
          none).cache).version = 0 ∧
    (pthread_var_get_np
        (pthread_var_get_np (pthread_var_set_np (pthread_var_init_np true) 7).state
          none).state
        (pthread_var_get_np (pthread_var_set_np (pthread_var_init_np true) 7).state
          none).cache).fastPath = false ∧
    1 < (pthread_var_get_np
        (pthread_var_get_np (pthread_var_set_np (pthread_var_init_np true) 7).state
          none).state
        (pthread_var_get_np (pthread_var_set_np (pthread_var_init_np true) 7).state
          none).cache).atomicOps := by
  decide

/-- C3: `pthread_var_set_np` with a NULL payload returns `EINVAL` before
touching anything (`thread_safe_global.c:553-554`): the result state is
exactly the input state — `next_version` not advanced, neither slot
modified, no wrapper allocated. -/
theorem pthread_var_set_np_null (s : Cell) :
    pthread_var_set_np s NULL =
      { err := EINVAL, newVersion := none, state := s, signaledFirst := false,
        dtorCalls := [], blocked := false, aborted := false } := rfl

/-- C4: on a cell on which no set has completed (`next_version = 0`, hence
the calling thread has nothing cached either), a get returns success with a
NULL value and version 0 and leaves the cell unchanged
(`thread_safe_global.c:328-334`). -/
theorem pthread_var_get_np_unset (s : Cell) (h : s.nextVersion = 0) :
    pthread_var_get_np s none =
      { err := 0, res := NULL, version := 0, state := s, cache := none,
        fastPath := false, atomicOps := 1, signaledWriter := false,
        dtorCalls := [], aborted := false } := by
  show pthread_var_get_slow s none 0 = _
  rw [pthread_var_get_slow, if_pos h]

/-- Witness for `pthread_var_get_np_unset` on a fresh cell. -/
theorem pthread_var_get_np_unset_witness :
    (pthread_var_init_np false).nextVersion = 0 ∧
    pthread_var_get_np (pthread_var_init_np false) none =
      { err := 0, res := NULL, version := 0, state := pthread_var_init_np false,
        cache := none, fastPath := false, atomicOps := 1,
        signaledWriter := false, dtorCalls := [], aborted := false } :=
  ⟨rfl, pthread_var_get_np_unset (pthread_var_init_np false) rfl⟩

/-- C5: the first successful set (the one that observes `next_version = 0`
under the write mutex, both slots being empty) installs the new wrapper into
both slots, its reference count reaching 2 — one increment per slot —,
advances `next_version` from 0 to exactly 1, signals the first-write
waiters, and outputs version 0 (`thread_safe_global.c:585-607`). -/
theorem pthread_var_set_np_first_write (s : Cell) (p : Nat) (hp : ¬ p = NULL)
    (h0 : s.nextVersion = 0) (hs0 : s.slot0.wrapper = none)
    (hs1 : s.slot1.wrapper = none) :
    (pthread_var_set_np s p).err = 0 ∧
    (pthread_var_set_np s p).state.slot0.wrapper = some s.heap.length ∧
    (pthread_var_set_np s p).state.slot1.wrapper = some s.heap.length ∧
    (pthread_var_set_np s p).state.heap.get? s.heap.length =
      some { ptr := p, nref := 2, version := 0, hasDtor := s.hasDtor,
             alive := true } ∧
    (pthread_var_set_np s p).state.nextVersion = 1 ∧
    (pthread_var_set_np s p).signaledFirst = true ∧
    (pthread_var_set_np s p).newVersion = some 0 := by
  obtain ⟨a, -, -, d, b, -, c, e, f, g⟩ :=
    pthread_var_set_np_first_spec s p hp h0 hs0 hs1
  exact ⟨a, f, g, c, b, e, d⟩

/-- Witness for `pthread_var_set_np_first_write` on a fresh cell and
payload 7. -/
theorem pthread_var_set_np_first_write_witness :
    ¬ (7 : Nat) = NULL ∧ (pthread_var_init_np true).nextVersion = 0 ∧
    (pthread_var_init_np true).slot0.wrapper = none ∧
    (pthread_var_init_np true).slot1.wrapper = none ∧
    ((pthread_var_set_np (pthread_var_init_np true) 7).err = 0 ∧
     (pthread_var_set_np (pthread_var_init_np true) 7).state.slot0.wrapper
       = some (pthread_var_init_np true).heap.length ∧
     (pthread_var_set_np (pthread_var_init_np true) 7).state.slot1.wrapper
       = some (pthread_var_init_np true).heap.length ∧
     (pthread_var_set_np (pthread_var_init_np true) 7).state.heap.get?
        (pthread_var_init_np true).heap.length =
       some { ptr := 7, nref := 2, version := 0,
              hasDtor := (pthread_var_init_np true).hasDtor, alive := true } ∧
     (pthread_var_set_np (pthread_var_init_np true) 7).state.nextVersion = 1 ∧
     (pthread_var_set_np (pthread_var_init_np true) 7).signaledFirst = true ∧
     (pthread_var_set_np (pthread_var_init_np true) 7).newVersion = some 0) :=
  ⟨by decide, rfl, rfl, rfl,
   pthread_var_set_np_first_write (pthread_var_init_np true) 7 (by decide)
     rfl rfl rfl⟩

end Ctp

